import Mathlib

/-!
# Verification of the PRET MCP client core

A shallow embedding of the JSON-RPC client code in
`standalone_pret_mcp_client.py`, `interactive_pret_client.py` and
`pret_uagent_wrapper.py`, together with proofs and refutations of the
specified protocol properties (id allocation, response correlation,
timeout/EOF handling, malformed-line handling, the `callTool` result
shapes, cleanup idempotence, and the request serialization round-trip).

The JSON layer models Python's `json.dumps` (default settings: separators
`", "` and `": "`, `ensure_ascii=True`) and `json.loads` on the fragment
the clients exchange: `null`, booleans, arbitrary-precision integers,
strings, arrays and objects.  Floating-point literals are outside the
model (none ever appear in the requests the clients build), and an
object is an ordered list of key/value pairs (Python's `dict` collapses
duplicate keys, keeping the last; lookups below therefore also take the
last binding).
-/

namespace PretClient

/-- A JSON value, as exchanged on the wire (float-free fragment). -/
inductive Json where
  | null
  | bool (b : Bool)
  | num (n : Int)
  | str (s : String)
  | arr (items : List Json)
  | obj (entries : List (String × Json))

namespace Json

/-- Key lookup in an object: the LAST binding wins, matching what
`dict(pairs)` produces when `json.loads` builds a Python dict.  Any
non-object has no fields (`"k" in response` is `False` for a JSON array,
and the clients only index into dict responses). -/
def getField : Json → String → Option Json
  | .obj entries, key =>
      entries.foldl (fun acc kv => if kv.1 = key then some kv.2 else acc) none
  | _, _ => none

end Json

/-! ## Rendering: a model of Python `json.dumps` (default settings)

`json.dumps` with default arguments separates array items with `", "`,
keys from values with `": "`, and escapes every character outside
`0x20..0x7e` (`ensure_ascii=True`): the two-character escapes for
`"`, `\`, backspace, form feed, newline, carriage return and tab, a
`\uXXXX` escape (lower-case hex) for every other character up to
`0xffff`, and a surrogate pair of `\uXXXX` escapes beyond that. -/

/-- The lower-case hex digit for `d < 16`. -/
def hexChar : Nat → Char
  | 0 => '0' | 1 => '1' | 2 => '2' | 3 => '3'
  | 4 => '4' | 5 => '5' | 6 => '6' | 7 => '7'
  | 8 => '8' | 9 => '9' | 10 => 'a' | 11 => 'b'
  | 12 => 'c' | 13 => 'd' | 14 => 'e' | 15 => 'f'
  | _ + 16 => '0'

/-- Four hex digits of `n < 0x10000`, most significant first. -/
def hex4Chars (n : Nat) : List Char :=
  [hexChar (n / 4096 % 16), hexChar (n / 256 % 16), hexChar (n / 16 % 16), hexChar (n % 16)]

/-- One character as `json.dumps` (ensure_ascii) writes it inside a string. -/
def dumpChar (c : Char) : List Char :=
  if c = '"' then ['\\', '"']
  else if c = '\\' then ['\\', '\\']
  else if c = '\n' then ['\\', 'n']
  else if c = '\r' then ['\\', 'r']
  else if c = '\t' then ['\\', 't']
  else if c.toNat = 8 then ['\\', 'b']
  else if c.toNat = 12 then ['\\', 'f']
  else if c.toNat < 0x20 ∨ 0x7e < c.toNat then
    if c.toNat < 0x10000 then
      '\\' :: 'u' :: hex4Chars c.toNat
    else
      '\\' :: 'u' :: hex4Chars (0xd800 + (c.toNat - 0x10000) / 0x400) ++
      '\\' :: 'u' :: hex4Chars (0xdc00 + (c.toNat - 0x10000) % 0x400)
  else [c]

/-- A string body, escaped (without the surrounding quotes). -/
def dumpStrBody : List Char → List Char
  | [] => []
  | c :: cs => dumpChar c ++ dumpStrBody cs

/-- A quoted, escaped JSON string. -/
def dumpStr (s : String) : List Char :=
  '"' :: dumpStrBody s.data ++ ['"']

/-- Decimal digits of `n`, least significant first. -/
def dumpNatRev (n : Nat) : List Char :=
  if h : n < 10 then [hexChar n]
  else hexChar (n % 10) :: dumpNatRev (n / 10)
decreasing_by exact Nat.div_lt_self (by omega) (by omega)

/-- Decimal digits of `n`, most significant first. -/
def dumpNat (n : Nat) : List Char := (dumpNatRev n).reverse

/-- A JSON integer: optional minus sign and decimal digits. -/
def dumpInt (n : Int) : List Char :=
  if n < 0 then '-' :: dumpNat n.natAbs else dumpNat n.toNat

mutual

/-- A JSON value, rendered exactly as `json.dumps` renders it. -/
def dumpVal : Json → List Char
  | .null => 'n' :: ['u', 'l', 'l']
  | .bool true => 't' :: ['r', 'u', 'e']
  | .bool false => 'f' :: ['a', 'l', 's', 'e']
  | .num n => dumpInt n
  | .str s => dumpStr s
  | .arr items => '[' :: dumpItems items ++ [']']
  | .obj entries => '{' :: dumpEntries entries ++ ['}']

/-- Array items joined by `", "` (the default item separator). -/
def dumpItems : List Json → List Char
  | [] => []
  | [x] => dumpVal x
  | x :: y :: xs => dumpVal x ++ ',' :: ' ' :: dumpItems (y :: xs)

/-- Object entries: `"key": value` joined by `", "`. -/
def dumpEntries : List (String × Json) → List Char
  | [] => []
  | [(k, v)] => dumpStr k ++ ':' :: ' ' :: dumpVal v
  | (k, v) :: e :: es => dumpStr k ++ ':' :: ' ' :: dumpVal v ++ ',' :: ' ' :: dumpEntries (e :: es)

end

/-- `json.dumps`: the serialized text of a value. -/
def json_dumps (j : Json) : String := String.mk (dumpVal j)

/-- What follows the first item of an array rendering (nothing, or `", "`
and the remaining items). -/
def dumpItemsTail : List Json → List Char
  | [] => []
  | y :: ys => ',' :: ' ' :: dumpItems (y :: ys)

/-! ## Parsing: a model of Python `json.loads`

`json.loads` skips the JSON whitespace characters (space, tab, newline,
carriage return) around tokens, decodes the escapes (including `\uXXXX`
and surrogate pairs), rejects raw control characters inside strings
(strict mode), and requires the document to end after one value.

Two deliberate deviations, neither reachable from rendered output:
a `\uXXXX` escape denoting a lone surrogate is rejected (a Lean `Char`
cannot hold one, while a Python `str` can), and the model accepts
leading zeros in integers, which Python rejects. -/

/-- JSON whitespace (the four characters `json.loads` skips). -/
def isJsonWs (c : Char) : Bool := c = ' ' || c = '\t' || c = '\n' || c = '\r'

/-- Drop leading JSON whitespace. -/
def wsSkip : List Char → List Char
  | [] => []
  | c :: cs => if isJsonWs c then wsSkip cs else c :: cs

/-- The value of a hex digit character, if it is one. -/
def hexNib (c : Char) : Option Nat :=
  if '0' ≤ c ∧ c ≤ '9' then some (c.toNat - 48)
  else if 'a' ≤ c ∧ c ≤ 'f' then some (c.toNat - 87)
  else if 'A' ≤ c ∧ c ≤ 'F' then some (c.toNat - 55)
  else none

/-- A decimal digit character (`0`–`9`). -/
def isDigitCh (c : Char) : Bool := 48 ≤ c.toNat && c.toNat ≤ 57

/-- Greedily consume decimal digits, accumulating their value. -/
def loadDigits : List Char → Nat → Nat × List Char
  | [], acc => (acc, [])
  | c :: cs, acc =>
      if isDigitCh c then loadDigits cs (acc * 10 + (c.toNat - 48)) else (acc, c :: cs)

/-- Parse an integer literal (optional minus sign, then at least one digit). -/
def loadInt : List Char → Option (Int × List Char)
  | [] => none
  | c :: cs =>
      if c = '-' then
        match cs with
        | [] => none
        | d :: _ =>
            if isDigitCh d then
              let p := loadDigits cs 0
              some (-(p.1 : Int), p.2)
            else none
      else if isDigitCh c then
        let p := loadDigits (c :: cs) 0
        some ((p.1 : Int), p.2)
      else none

/-- Read four hex digits, yielding their value. -/
def loadU16 : List Char → Option (Nat × List Char)
  | h3 :: h2 :: h1 :: h0 :: cs =>
      match hexNib h3, hexNib h2, hexNib h1, hexNib h0 with
      | some a, some b, some c, some d => some (((a * 16 + b) * 16 + c) * 16 + d, cs)
      | _, _, _, _ => none
  | _ => none

/-- Parse a string body after the opening quote, decoding escapes.
Raw control characters are rejected (strict mode); a `\uXXXX` high
surrogate must be followed by a low surrogate and the pair is combined.
`fuel` bounds the number of decoded characters (each decoded character
consumes at least one input character, so the input length suffices). -/
def loadStrBody : Nat → List Char → Option (List Char × List Char)
  | 0, _ => none
  | _ + 1, [] => none
  | fuel + 1, c :: cs =>
      if c = '"' then some ([], cs)
      else if c = '\\' then
        match cs with
        | [] => none
        | e :: cs2 =>
            if e = '"' then (loadStrBody fuel cs2).map (fun p => ('"' :: p.1, p.2))
            else if e = '\\' then (loadStrBody fuel cs2).map (fun p => ('\\' :: p.1, p.2))
            else if e = '/' then (loadStrBody fuel cs2).map (fun p => ('/' :: p.1, p.2))
            else if e = 'b' then (loadStrBody fuel cs2).map (fun p => (Char.ofNat 8 :: p.1, p.2))
            else if e = 'f' then (loadStrBody fuel cs2).map (fun p => (Char.ofNat 12 :: p.1, p.2))
            else if e = 'n' then (loadStrBody fuel cs2).map (fun p => ('\n' :: p.1, p.2))
            else if e = 'r' then (loadStrBody fuel cs2).map (fun p => ('\r' :: p.1, p.2))
            else if e = 't' then (loadStrBody fuel cs2).map (fun p => ('\t' :: p.1, p.2))
            else if e = 'u' then
              match loadU16 cs2 with
              | none => none
              | some (m, cs3) =>
                  if m < 0xd800 ∨ 0xdfff < m then
                    (loadStrBody fuel cs3).map (fun p => (Char.ofNat m :: p.1, p.2))
                  else if m < 0xdc00 then
                    match cs3 with
                    | b1 :: b2 :: cs3' =>
                        if b1 = '\\' ∧ b2 = 'u' then
                          match loadU16 cs3' with
                          | none => none
                          | some (m2, cs4) =>
                              if 0xdc00 ≤ m2 ∧ m2 ≤ 0xdfff then
                                (loadStrBody fuel cs4).map (fun p =>
                                  (Char.ofNat (0x10000 + (m - 0xd800) * 0x400 + (m2 - 0xdc00)) :: p.1, p.2))
                              else none
                        else none
                    | _ => none
                  else none
            else none
      else if 0x20 ≤ c.toNat then (loadStrBody fuel cs).map (fun p => (c :: p.1, p.2))
      else none

/-- Expect the exact characters `lit`, then yield `j`. -/
def loadLit (lit : List Char) (cs : List Char) (j : Json) : Option (Json × List Char) :=
  match lit, cs with
  | [], rest => some (j, rest)
  | l :: ls, c :: rest => if c = l then loadLit ls rest j else none
  | _ :: _, [] => none

mutual

/-- Parse one JSON value whose first character is at the head of the input
(callers skip whitespace first, as Python's scanner does); `fuel` bounds
the recursion depth. -/
def loadVal : Nat → List Char → Option (Json × List Char)
  | 0, _ => none
  | fuel + 1, cs =>
      match cs with
      | [] => none
      | c :: rest =>
          if c = 'n' then loadLit ['u', 'l', 'l'] rest Json.null
          else if c = 't' then loadLit ['r', 'u', 'e'] rest (Json.bool true)
          else if c = 'f' then loadLit ['a', 'l', 's', 'e'] rest (Json.bool false)
          else if c = '"' then
            (loadStrBody (rest.length + 1) rest).map (fun p => (Json.str (String.mk p.1), p.2))
          else if c = '[' then
            match wsSkip rest with
            | [] => none
            | c1 :: r1 =>
                if c1 = ']' then some (Json.arr [], r1)
                else (loadItems fuel (c1 :: r1)).map (fun p => (Json.arr p.1, p.2))
          else if c = '{' then
            match wsSkip rest with
            | [] => none
            | c1 :: r1 =>
                if c1 = '}' then some (Json.obj [], r1)
                else (loadEntries fuel (c1 :: r1)).map (fun p => (Json.obj p.1, p.2))
          else if c = '-' ∨ isDigitCh c then
            (loadInt (c :: rest)).map (fun p => (Json.num p.1, p.2))
          else none

/-- Parse one or more comma-separated array items and the closing `]`. -/
def loadItems : Nat → List Char → Option (List Json × List Char)
  | 0, _ => none
  | fuel + 1, cs =>
      match loadVal fuel cs with
      | none => none
      | some (v, r) =>
          match wsSkip r with
          | ',' :: r2 => (loadItems fuel (wsSkip r2)).map (fun p => (v :: p.1, p.2))
          | ']' :: r2 => some ([v], r2)
          | _ => none

/-- Parse one or more `"key": value` entries and the closing `}`. -/
def loadEntries : Nat → List Char → Option (List (String × Json) × List Char)
  | 0, _ => none
  | fuel + 1, cs =>
      match cs with
      | '"' :: r =>
          match loadStrBody (r.length + 1) r with
          | none => none
          | some (key, r1) =>
              match wsSkip r1 with
              | ':' :: r2 =>
                  match loadVal fuel (wsSkip r2) with
                  | none => none
                  | some (v, r3) =>
                      match wsSkip r3 with
                      | ',' :: r4 => (loadEntries fuel (wsSkip r4)).map (fun p => ((String.mk key, v) :: p.1, p.2))
                      | '}' :: r4 => some ([(String.mk key, v)], r4)
                      | _ => none
              | _ => none
      | _ => none

end

/-- `json.loads`: parse a complete document (one value, whitespace around it). -/
def json_loads (s : String) : Option Json :=
  match loadVal (s.data.length + 1) (wsSkip s.data) with
  | none => none
  | some (j, rest) => if wsSkip rest = [] then some j else none

/-- A remainder that cannot extend a digit run: empty or non-digit-headed.
Every delimiter a rendered document puts after a number (`,`, `]`, `}`,
end of input) qualifies. -/
def digitStop : List Char → Bool
  | [] => true
  | c :: _ => !isDigitCh c

/-! The recursion budget a value needs from the parser's `fuel`. -/

mutual

def szV : Json → Nat
  | .arr items => szItems items + 1
  | .obj entries => szEntries entries + 1
  | _ => 1

def szItems : List Json → Nat
  | [] => 0
  | x :: xs => szV x + szItems xs + 1

def szEntries : List (String × Json) → Nat
  | [] => 0
  | (_, v) :: es => szV v + szEntries es + 1

end

/-! ## Python `str.strip` -/

/-- The ASCII whitespace characters `str.strip()` removes (space, tab,
newline, carriage return, vertical tab, form feed). -/
def isPySpace (c : Char) : Bool :=
  c = ' ' || c = '\t' || c = '\n' || c = '\r' || c.toNat = 11 || c.toNat = 12

/-- `str.strip()`: drop leading and trailing whitespace. -/
def pyStrip (s : String) : String :=
  String.mk (((s.data.dropWhile isPySpace).reverse.dropWhile isPySpace).reverse)

/-! ## The embedded clients

The three scripts share one wire shape: write `json.dumps(request) + "\n"`
to the child's stdin, read ONE line from its stdout, `decode().strip()`
it and `json.loads` it.  None of them reads more than one line per call,
and none of them ever looks at the `id` of the line it read.

`ReadOutcome` is what a single `readline()` can yield to the caller:
a line, `b""` (EOF), or — when the stream stays open and silent — either
the `asyncio.wait_for` deadline firing (the standalone and interactive
clients) or suspension forever (the uAgent wrapper, which awaits
`readline()` with no timeout). -/

/-- The JSON-RPC request triple (the `jsonrpc` field is fixed). -/
structure Request where
  id : Int
  method : String
  params : Json

/-- The dict the clients build, in its exact key order. -/
def requestToJson (r : Request) : Json :=
  .obj [("jsonrpc", .str "2.0"), ("id", .num r.id),
        ("method", .str r.method), ("params", r.params)]

/-- `json.dumps(request) + "\n"`: the single line written to the server. -/
def serializeRequest (r : Request) : String :=
  json_dumps (requestToJson r) ++ "\n"

/-- `{"name": tool, "arguments": args}`. -/
def toolCallParams (tool : String) (args : Json) : Json :=
  .obj [("name", .str tool), ("arguments", args)]

/-- The `tools/call` request all three clients build. -/
def toolCallRequest (id : Int) (tool : String) (args : Json) : Json :=
  requestToJson ⟨id, "tools/call", toolCallParams tool args⟩

/-- The fixed handshake params (protocol version, capabilities, identity). -/
def initParams (clientName : String) : Json :=
  .obj [("protocolVersion", .str "2024-11-05"),
        ("capabilities", .obj [("tools", .obj [])]),
        ("clientInfo", .obj [("name", .str clientName), ("version", .str "1.0.0")])]

/-- What one `readline()` yields. -/
inductive ReadOutcome where
  | line (raw : String)
  | eof
  | noLine

/-- A Python call returns a value, raises, or never returns. -/
inductive PyResult (α : Type) where
  | ok (a : α)
  | exn (msg : String)
  | hangs

/-- The child process's side of the conversation: the lines it will write
(in order), and whether its stdout then closes. -/
structure ServerScript where
  lines : List String
  closes : Bool

/-- One read against the script: the next line, or EOF/silence. -/
def nextRead (sv : ServerScript) : ReadOutcome × ServerScript :=
  match sv.lines with
  | [] => (if sv.closes then .eof else .noLine, sv)
  | l :: ls => (.line l, { sv with lines := ls })

/-- `{"success": True, "data": d}`. -/
def successDict (d : Json) : Json := .obj [("success", .bool true), ("data", d)]

/-- `{"success": False, "error": e}`. -/
def errorDict (e : Json) : Json := .obj [("success", .bool false), ("error", e)]

/-- `str(e)` of a `json.JSONDecodeError`; the model abstracts the detail
text ("Expecting value: line 1 column …") to this fixed token. -/
def jsonErrText : String := "JSONDecodeError"

/-! ### `StandalonePRETMCPClient` (`standalone_pret_mcp_client.py`)

`InteractivePRETMCPClient` (`interactive_pret_client.py`) duplicates this
code with a 15-second instead of 10-second `wait_for` deadline, no print
statements, and an `is_connected` flag that `send_request` never checks;
`ReadOutcome.noLine` stands for "the deadline fired" in both. -/

/-- The mutable client state: `self.process` (is it started) and
`self.request_id` (initialized to 1 in `__init__`). -/
structure SaClient where
  started : Bool
  request_id : Nat

/-- A fresh client: no process, `request_id = 1`. -/
def saClientInit : SaClient := { started := false, request_id := 1 }

/-- The id-allocation step both `initialize` and `call_tool` perform:
build a request with `self.request_id`, then `self.request_id += 1`. -/
def allocId (c : SaClient) : Nat × SaClient :=
  (c.request_id, { c with request_id := c.request_id + 1 })

/-- The ids the client stamps on its next `k` requests. -/
def idTrace (c : SaClient) : Nat → List Nat
  | 0 => []
  | k + 1 => (allocId c).1 :: idTrace (allocId c).2 k

/-- What a call to `send_request` produces: its outcome, the lines it
wrote to the server, and the server output it left unread. -/
structure SaSendResult where
  result : PyResult Json
  sent : List String
  rest : ServerScript

/-- `send_request(self, request)`: raise if the process is not started;
write `json.dumps(request) + "\n"`; read ONE line with a timeout
(`wait_for`); raise on timeout, EOF or an empty line; `strip()` and
`json.loads` it, raising `Invalid JSON response: …` if that fails.
The request's content — in particular its `id` — plays no part in which
line is read or returned. -/
def send_request (started : Bool) (req : Json) (sv : ServerScript) : SaSendResult :=
  if !started then { result := .exn "MCP server not started", sent := [], rest := sv }
  else
    let line := json_dumps req ++ "\n"
    let (rd, sv') := nextRead sv
    { result :=
        match rd with
        | .noLine => .exn "Response timeout"
        | .eof => .exn "No response received"
        | .line raw =>
            let txt := pyStrip raw
            if txt = "" then .exn "Empty response received"
            else
              match json_loads txt with
              | some resp => .ok resp
              | none => .exn ("Invalid JSON response: " ++ txt ++ " - Error: " ++ jsonErrText)
      sent := [line]
      rest := sv' }

/-- What a `call_tool`-style call can produce: a returned dict, Python
`None`, or no return at all. -/
inductive CallResult where
  | dict (d : Json)
  | pyNone
  | hangs

/-- `call_tool`'s full effect. -/
structure SaCallResult where
  result : CallResult
  client : SaClient
  sent : List String
  rest : ServerScript

/-- `call_tool(self, tool_name, arguments)` of the standalone and
interactive clients: build the `tools/call` request with the current
`request_id`, bump the counter, `send_request` it, and shape the reply:
`result` key → success dict, `error` key → the server's error object,
neither → a fixed failure message; any exception becomes
`{"success": False, "error": str(e)}`. -/
def call_tool (c : SaClient) (tool : String) (args : Json) (sv : ServerScript) : SaCallResult :=
  let req := toolCallRequest c.request_id tool args
  let c' := { c with request_id := c.request_id + 1 }
  let s := send_request c.started req sv
  { result :=
      match s.result with
      | .ok resp =>
          if (resp.getField "result").isSome then
            .dict (successDict ((resp.getField "result").getD .null))
          else if (resp.getField "error").isSome then
            .dict (errorDict ((resp.getField "error").getD .null))
          else .dict (errorDict (.str "No result or error in response"))
      | .exn msg => .dict (errorDict (.str msg))
      | .hangs => .hangs
    client := c'
    sent := s.sent
    rest := s.rest }

/-- The handshake request `initialize(self)` builds (id allocated from
the counter, params fixed). -/
def saInitRequest (id : Int) (clientName : String) : Json :=
  requestToJson ⟨id, "initialize", initParams clientName⟩

/-- `initialize(self)`: build the handshake with the current id, bump the
counter, and `send_request` it (so it awaits exactly one response and
raises on timeout, EOF, an empty line or malformed JSON). -/
def initializeCall (c : SaClient) (clientName : String) (sv : ServerScript) :
    SaSendResult × SaClient :=
  (send_request c.started (saInitRequest c.request_id clientName) sv,
   { c with request_id := c.request_id + 1 })

/-! ### `PRETMCPClient` (`pret_uagent_wrapper.py`) -/

/-- The wrapper's handshake request: the id is the literal `1`. -/
def wrapperInitRequest : Json := requestToJson ⟨1, "initialize", initParams "PRET-uAgent"⟩

/-- The `tools/call` request `PRETMCPClient.call_tool` builds: the id is
the literal `2` on every call — there is no counter in this class. -/
def wrapperToolRequest (tool : String) (args : Json) : Json :=
  toolCallRequest 2 tool args

/-- How `_initialize_session` can end. -/
inductive WInitResult where
  | ready
  | raised (msg : String)
  | hangs

/-- `_initialize_session(self)`: write the handshake, await one
`readline()` with NO timeout.  An empty read (`if response_line:` false)
falls through and RETURNS NORMALLY — the session counts as initialized
with no response at all; a line that fails `json.loads` raises out of
`connect()`; silence suspends forever. -/
def wrapperInitSession (rd : ReadOutcome) : WInitResult :=
  match rd with
  | .noLine => .hangs
  | .eof => .ready
  | .line raw =>
      match json_loads (pyStrip raw) with
      | some _ => .ready
      | none => .raised jsonErrText

/-- The wrapper call's effect: its outcome and the lines written. -/
structure WrapperCall where
  outcome : CallResult
  sent : List String

/-- `call_tool(self, tool_name, arguments)` of the uAgent wrapper:
return an error dict if the process is absent; otherwise write the
fixed-id request and await one `readline()` with NO timeout.  A line with
a `result` key → success dict; any other line → the fixed message
`"No result in MCP response"` (the server's `error` object is dropped);
an empty read falls off the `if response_line:` and returns `None`;
silence suspends forever.  Exceptions inside the `try` (e.g. from
`json.loads`) become `{"success": False, "error": str(e)}`. -/
def wrapper_call_tool (started : Bool) (tool : String) (args : Json) (rd : ReadOutcome) :
    WrapperCall :=
  if !started then
    { outcome := .dict (errorDict (.str "PRET MCP server not started")), sent := [] }
  else
    { outcome :=
        match rd with
        | .noLine => .hangs
        | .eof => .pyNone
        | .line raw =>
            match json_loads (pyStrip raw) with
            | none => .dict (errorDict (.str jsonErrText))
            | some resp =>
                if (resp.getField "result").isSome then
                  .dict (successDict ((resp.getField "result").getD .null))
                else .dict (errorDict (.str "No result in MCP response"))
      sent := [json_dumps (wrapperToolRequest tool args) ++ "\n"] }

/-! ### `cleanup` (standalone and interactive) -/

/-- A child process handle: still running, or already exited. -/
inductive ProcHandle where
  | running
  | exited

/-- `process.terminate()`: signals a running process; raises
`ProcessLookupError` on one that already exited. -/
def pyTerminate : ProcHandle → Except String ProcHandle
  | .running => .ok .exited
  | .exited => .error "ProcessLookupError"

/-- The state `cleanup` touches: `self.process` (None if never started). -/
structure SaSession where
  process : Option ProcHandle

/-- `cleanup(self)` of the standalone client: nothing if the process was
never started; otherwise `terminate()` inside `try`, with any exception
caught and only logged.  Returns the new state and whether an exception
escaped (it never does).  `terminate()` only sends a signal — it cannot
block. -/
def cleanup (s : SaSession) : SaSession × Bool :=
  match s.process with
  | none => (s, false)
  | some p =>
      match pyTerminate p with
      | .ok p' => ({ process := some p' }, false)
      | .error _ => (s, false)

/-- The interactive client's cleanup state also has `is_connected`. -/
structure InteractiveSession where
  process : Option ProcHandle
  is_connected : Bool

/-- `cleanup(self)` of the interactive client: as the standalone one,
but on success it also clears `is_connected` (set before the `print`,
after `terminate()`, so a raise leaves it untouched). -/
def interactiveCleanup (s : InteractiveSession) : InteractiveSession × Bool :=
  match s.process with
  | none => (s, false)
  | some p =>
      match pyTerminate p with
      | .ok p' => ({ process := some p', is_connected := false }, false)
      | .error _ => (s, false)

/-! ### Concrete scenario data (from the scripts' own test values) -/

/-- The GLEIF tool arguments the scripts use in their tests. -/
def gleifArgs : Json :=
  .obj [("companyName", .str "SREE PALANI ANDAVAR AGROS PRIVATE LIMITED")]

/-- EXIM tool arguments. -/
def eximArgs : Json := .obj [("companyName", .str "palani")]

/-- A well-formed result Response whose `id` matches nothing outstanding. -/
def mismatchResponse : Json :=
  .obj [("jsonrpc", .str "2.0"), ("id", .num 999), ("result", .num 7)]

/-- A well-formed result Response with `id` 2. -/
def resultResponse : Json :=
  .obj [("jsonrpc", .str "2.0"), ("id", .num 2), ("result", .num 7)]

/-- The server's error object in `rpcErrorResponse`. -/
def rpcErrorObj : Json :=
  .obj [("code", .num (-32601)), ("message", .str "Method not found")]

/-- A well-formed error Response carrying a server error object. -/
def rpcErrorResponse : Json :=
  .obj [("jsonrpc", .str "2.0"), ("id", .num 2), ("error", rpcErrorObj)]

/-! ## Character facts -/

theorem char_eq_of_toNat_eq {c d : Char} (h : c.toNat = d.toNat) : c = d :=
  Char.eq_of_val_eq (UInt32.ext h)

/-- `c ≠ d` from numeric codes; `hd` names `d`'s code so `omega` can finish. -/
theorem char_ne {c d : Char} {n : Nat} (hd : d.toNat = n) (h : ¬ c.toNat = n) : ¬ c = d :=
  fun e => h (by rw [e, hd])

/-- A `Char` is a unicode scalar value: below the surrogates or past them. -/
theorem char_scalar (c : Char) : c.toNat < 0xd800 ∨ (0xdfff < c.toNat ∧ c.toNat < 0x110000) :=
  c.valid

theorem isDigitCh_toNat {c : Char} (h : isDigitCh c = true) : 48 ≤ c.toNat ∧ c.toNat ≤ 57 := by
  simpa [isDigitCh] using h

theorem not_isJsonWs {c : Char}
    (h : ¬ c.toNat = 32 ∧ ¬ c.toNat = 9 ∧ ¬ c.toNat = 10 ∧ ¬ c.toNat = 13) :
    isJsonWs c = false := by
  simp only [isJsonWs, Bool.or_eq_false_iff, decide_eq_false_iff_not]
  exact ⟨⟨⟨char_ne (n := 32) rfl h.1, char_ne (n := 9) rfl h.2.1⟩,
    char_ne (n := 10) rfl h.2.2.1⟩, char_ne (n := 13) rfl h.2.2.2⟩

theorem wsSkip_not_ws {c : Char} (h : isJsonWs c = false) (t : List Char) :
    wsSkip (c :: t) = c :: t := by
  simp [wsSkip, h]

/-- The nine facts about a digit character that the parser's dispatch needs. -/
theorem digit_head_facts {c : Char} (h : isDigitCh c = true) :
    isJsonWs c = false ∧ ¬ c = 'n' ∧ ¬ c = 't' ∧ ¬ c = 'f' ∧ ¬ c = '"' ∧
    ¬ c = '[' ∧ ¬ c = '{' ∧ ¬ c = ']' ∧ ¬ c = '}' := by
  obtain ⟨h1, h2⟩ := isDigitCh_toNat h
  exact ⟨not_isJsonWs ⟨by omega, by omega, by omega, by omega⟩,
    char_ne (n := 110) rfl (by omega), char_ne (n := 116) rfl (by omega),
    char_ne (n := 102) rfl (by omega), char_ne (n := 34) rfl (by omega),
    char_ne (n := 91) rfl (by omega), char_ne (n := 123) rfl (by omega),
    char_ne (n := 93) rfl (by omega), char_ne (n := 125) rfl (by omega)⟩

theorem hexChar_digit {d : Nat} (h : d < 10) :
    isDigitCh (hexChar d) = true ∧ (hexChar d).toNat - 48 = d := by
  interval_cases d <;> exact ⟨by decide, by decide⟩

theorem hexNib_hexChar {d : Nat} (h : d < 16) : hexNib (hexChar d) = some d := by
  interval_cases d <;> decide

/-! ## The integer codec round-trip -/

theorem loadDigits_stop {cs : List Char} (h : digitStop cs = true) (acc : Nat) :
    loadDigits cs acc = (acc, cs) := by
  match cs with
  | [] => rfl
  | c :: t =>
      simp only [digitStop, Bool.not_eq_true'] at h
      simp [loadDigits, h]

theorem loadDigits_run :
    ∀ ds : List Char, (∀ c ∈ ds, isDigitCh c = true) →
    ∀ rest : List Char, digitStop rest = true → ∀ acc : Nat,
    loadDigits (ds ++ rest) acc
      = (ds.foldl (fun a c => a * 10 + (c.toNat - 48)) acc, rest) := by
  intro ds
  induction ds with
  | nil => intro _ rest hrest acc; simpa using loadDigits_stop hrest acc
  | cons c t ih =>
      intro hds rest hrest acc
      have hc : isDigitCh c = true := hds c (by simp)
      simp only [List.cons_append, loadDigits, hc, if_pos, List.append_eq]
      rw [ih (fun x hx => hds x (by simp [hx])) rest hrest]
      simp

/-- One unfolding of `dumpNat`, splitting off the least significant digit. -/
theorem dumpNat_unfold (n : Nat) :
    dumpNat n = (if n < 10 then [] else dumpNat (n / 10)) ++ [hexChar (n % 10)] := by
  rw [dumpNat, dumpNatRev]
  by_cases h : n < 10
  · simp [h, Nat.mod_eq_of_lt h]
  · simp [h, dumpNat]

theorem dumpNat_digits (n : Nat) : ∀ c ∈ dumpNat n, isDigitCh c = true := by
  induction n using Nat.strongRecOn with
  | _ n ih =>
    rw [dumpNat_unfold]
    intro c hc
    rw [List.mem_append] at hc
    rcases hc with hc | hc
    · by_cases h : n < 10
      · simp [h] at hc
      · exact ih (n / 10) (Nat.div_lt_self (by omega) (by omega)) c (by simpa [h] using hc)
    · rw [List.mem_singleton] at hc
      subst hc
      exact (hexChar_digit (Nat.mod_lt _ (by omega))).1

theorem dumpNat_ne_nil (n : Nat) : dumpNat n ≠ [] := by
  rw [dumpNat_unfold]; simp

theorem dumpNat_foldl (n : Nat) : ∀ acc : Nat,
    (dumpNat n).foldl (fun a c => a * 10 + (c.toNat - 48)) acc
      = acc * 10 ^ (dumpNat n).length + n := by
  induction n using Nat.strongRecOn with
  | _ n ih =>
    intro acc
    rw [dumpNat_unfold, List.foldl_append, List.length_append]
    by_cases h : n < 10
    · simp only [if_pos h, List.foldl_nil, List.foldl_cons, List.length_nil, List.length_cons]
      rw [(hexChar_digit (Nat.mod_lt _ (by omega))).2]
      have : n % 10 = n := Nat.mod_eq_of_lt h
      simp [this]
    · simp only [if_neg h, List.foldl_cons, List.foldl_nil, List.length_cons, List.length_nil]
      rw [ih (n / 10) (Nat.div_lt_self (by omega) (by omega)) acc,
        (hexChar_digit (Nat.mod_lt _ (by omega))).2]
      have hmul : acc * 10 ^ ((dumpNat (n / 10)).length + (0 + 1))
          = acc * 10 ^ (dumpNat (n / 10)).length * 10 := by ring
      rw [hmul]
      omega

theorem loadDigits_dumpNat (n : Nat) {rest : List Char} (h : digitStop rest = true) :
    loadDigits (dumpNat n ++ rest) 0 = (n, rest) := by
  rw [loadDigits_run (dumpNat n) (dumpNat_digits n) rest h 0, dumpNat_foldl]
  simp

/-! ## The string codec round-trip -/

theorem loadU16_hex4 {m : Nat} (h : m < 0x10000) (rest : List Char) :
    loadU16 (hex4Chars m ++ rest) = some (m, rest) := by
  have h16 : ∀ k : Nat, k % 16 < 16 := fun k => Nat.mod_lt _ (by omega)
  simp only [hex4Chars, List.cons_append, List.nil_append, loadU16,
    hexNib_hexChar (h16 _)]
  exact congrArg some (Prod.ext (by omega) rfl)

/-- Unfolding of the parser at a `\u` escape (definitional). -/
theorem loadStrBody_uEsc (f : Nat) (rest : List Char) :
    loadStrBody (f + 1) ('\\' :: 'u' :: rest) =
      match loadU16 rest with
      | none => none
      | some (m, cs3) =>
          if m < 0xd800 ∨ 0xdfff < m then
            (loadStrBody f cs3).map (fun p => (Char.ofNat m :: p.1, p.2))
          else if m < 0xdc00 then
            (match cs3 with
            | b1 :: b2 :: cs3' =>
                if b1 = '\\' ∧ b2 = 'u' then
                  (match loadU16 cs3' with
                  | none => none
                  | some (m2, cs4) =>
                      if 0xdc00 ≤ m2 ∧ m2 ≤ 0xdfff then
                        (loadStrBody f cs4).map (fun p =>
                          (Char.ofNat (0x10000 + (m - 0xd800) * 0x400 + (m2 - 0xdc00)) :: p.1, p.2))
                      else none)
                else none
            | _ => none)
          else none
    := rfl

/-- A `\uXXXX` escape outside the surrogate range decodes to one character. -/
theorem loadStrBody_uEsc_bmp (f : Nat) {rest cs3 : List Char} {m : Nat}
    (h : loadU16 rest = some (m, cs3)) (hm : m < 0xd800 ∨ 0xdfff < m) :
    loadStrBody (f + 1) ('\\' :: 'u' :: rest)
      = (loadStrBody f cs3).map (fun p => (Char.ofNat m :: p.1, p.2)) := by
  rw [loadStrBody_uEsc, h]
  simp only [if_pos hm]

/-- A high/low surrogate escape pair decodes to one astral character. -/
theorem loadStrBody_uEsc_pair (f : Nat) {rest cs3' cs4 : List Char} {m m2 : Nat}
    (h : loadU16 rest = some (m, '\\' :: 'u' :: cs3'))
    (hm : ¬ (m < 0xd800 ∨ 0xdfff < m)) (hm' : m < 0xdc00)
    (h2 : loadU16 cs3' = some (m2, cs4)) (hm2 : 0xdc00 ≤ m2 ∧ m2 ≤ 0xdfff) :
    loadStrBody (f + 1) ('\\' :: 'u' :: rest)
      = (loadStrBody f cs4).map (fun p =>
          (Char.ofNat (0x10000 + (m - 0xd800) * 0x400 + (m2 - 0xdc00)) :: p.1, p.2)) := by
  rw [loadStrBody_uEsc, h]
  simp only [if_neg hm, if_pos hm', eq_self_iff_true, and_self, if_true, h2, if_pos hm2]

/-- Parsing one escaped character undoes the escaping (and costs one fuel). -/
theorem loadStrBody_dumpChar (c : Char) (f : Nat) (tail : List Char) :
    loadStrBody (f + 1) (dumpChar c ++ tail)
      = (loadStrBody f tail).map (fun p => (c :: p.1, p.2)) := by
  by_cases h1 : c = '"'
  · subst h1; rfl
  by_cases h2 : c = '\\'
  · subst h2; rfl
  by_cases h3 : c = '\n'
  · subst h3; rfl
  by_cases h4 : c = '\r'
  · subst h4; rfl
  by_cases h5 : c = '\t'
  · subst h5; rfl
  by_cases h6 : c.toNat = 8
  · have hc : c = Char.ofNat 8 := char_eq_of_toNat_eq (by rw [h6]; rfl)
    subst hc; rfl
  by_cases h7 : c.toNat = 12
  · have hc : c = Char.ofNat 12 := char_eq_of_toNat_eq (by rw [h7]; rfl)
    subst hc; rfl
  by_cases h8 : c.toNat < 0x20 ∨ 0x7e < c.toNat
  · by_cases h9 : c.toNat < 0x10000
    · have hd : dumpChar c ++ tail = '\\' :: 'u' :: (hex4Chars c.toNat ++ tail) := by
        rw [dumpChar, if_neg h1, if_neg h2, if_neg h3, if_neg h4, if_neg h5,
          if_neg h6, if_neg h7, if_pos h8, if_pos h9]
        rfl
      have hval : c.toNat < 0xd800 ∨ 0xdfff < c.toNat := by
        rcases char_scalar c with h | h
        · exact Or.inl h
        · exact Or.inr h.1
      rw [hd, loadStrBody_uEsc_bmp f (loadU16_hex4 h9 tail) hval, Char.ofNat_toNat]
    · -- astral character: high and low surrogate escapes
      have hlt : c.toNat < 0x110000 := by
        rcases char_scalar c with h | h
        · omega
        · exact h.2
      have hq : (c.toNat - 0x10000) / 0x400 ≤ 0x3ff := by omega
      have hr : (c.toNat - 0x10000) % 0x400 ≤ 0x3ff := by
        have := Nat.mod_lt (c.toNat - 0x10000) (show 0 < 0x400 by omega)
        omega
      have hd : dumpChar c ++ tail
          = '\\' :: 'u' :: (hex4Chars (0xd800 + (c.toNat - 0x10000) / 0x400) ++
            ('\\' :: 'u' :: (hex4Chars (0xdc00 + (c.toNat - 0x10000) % 0x400) ++ tail))) := by
        rw [dumpChar, if_neg h1, if_neg h2, if_neg h3, if_neg h4, if_neg h5,
          if_neg h6, if_neg h7, if_pos h8, if_neg h9]
        simp [hex4Chars]
      have harith : 0x10000 + (0xd800 + (c.toNat - 0x10000) / 0x400 - 0xd800) * 0x400 +
          (0xdc00 + (c.toNat - 0x10000) % 0x400 - 0xdc00) = c.toNat := by
        have := Nat.div_add_mod (c.toNat - 0x10000) 0x400
        omega
      rw [hd, loadStrBody_uEsc_pair f (loadU16_hex4 (by omega) _)
        (by omega) (by omega) (loadU16_hex4 (by omega) tail) (by omega)]
      rw [harith, Char.ofNat_toNat]
  · -- printable ASCII, written literally
    have hd : dumpChar c ++ tail = c :: tail := by
      rw [dumpChar, if_neg h1, if_neg h2, if_neg h3, if_neg h4, if_neg h5,
        if_neg h6, if_neg h7, if_neg h8]
      rfl
    rw [hd, loadStrBody.eq_def]
    simp only [if_neg h1, if_neg h2, if_pos (show 0x20 ≤ c.toNat by omega)]

/-- Parsing a fully escaped body stops exactly at the closing quote. -/
theorem loadStrBody_dumpStrBody :
    ∀ (l : List Char) (f : Nat), l.length < f → ∀ rest : List Char,
    loadStrBody f (dumpStrBody l ++ '"' :: rest) = some (l, rest) := by
  intro l
  induction l with
  | nil =>
      intro f hf rest
      obtain ⟨f', rfl⟩ : ∃ f', f = f' + 1 := ⟨f - 1, by omega⟩
      rfl
  | cons c t ih =>
      intro f hf rest
      obtain ⟨f', rfl⟩ : ∃ f', f = f' + 1 := ⟨f - 1, by omega⟩
      have step : dumpStrBody (c :: t) ++ '"' :: rest
          = dumpChar c ++ (dumpStrBody t ++ '"' :: rest) := by
        simp [dumpStrBody]
      rw [step, loadStrBody_dumpChar, ih f' (by simpa using hf) rest]
      rfl

/-- Escaping never shortens a string. -/
theorem dumpStrBody_length (l : List Char) : l.length ≤ (dumpStrBody l).length := by
  induction l with
  | nil => simp [dumpStrBody]
  | cons c t ih =>
      have hne : dumpChar c ≠ [] := by
        rw [dumpChar]
        split
        · simp
        split
        · simp
        split
        · simp
        split
        · simp
        split
        · simp
        split
        · simp
        split
        · simp
        split
        · split
          · simp
          · simp [hex4Chars]
        · simp
      have : 1 ≤ (dumpChar c).length := by
        cases hc : dumpChar c with
        | nil => exact absurd hc hne
        | cons a b => simp
      simp only [dumpStrBody, List.length_cons, List.length_append]
      omega

/-- A nonempty digit run starts with a digit. -/
theorem dumpNat_head (n : Nat) :
    ∃ c t, dumpNat n = c :: t ∧ isDigitCh c = true := by
  match hc : dumpNat n with
  | [] => exact absurd hc (dumpNat_ne_nil n)
  | c :: t => exact ⟨c, t, rfl, dumpNat_digits n c (hc ▸ List.mem_cons_self ..)⟩

/-- The integer codec round-trip: `loadInt` inverts `dumpInt` in front of
any remainder that cannot extend the digit run. -/
theorem loadInt_dumpInt (n : Int) {rest : List Char} (h : digitStop rest = true) :
    loadInt (dumpInt n ++ rest) = some (n, rest) := by
  obtain ⟨c, t, hct, hdig⟩ := dumpNat_head n.natAbs
  by_cases hn : n < 0
  · have harg : dumpInt n ++ rest = '-' :: (dumpNat n.natAbs ++ rest) := by
      simp [dumpInt, hn]
    rw [harg, hct]
    simp only [loadInt, if_pos rfl, List.cons_append, hdig, if_pos]
    rw [← List.cons_append, ← hct, loadDigits_dumpNat _ h]
    simp only [Option.some.injEq, Prod.mk.injEq]
    exact ⟨by omega, trivial⟩
  · have habs : n.natAbs = n.toNat := by omega
    have harg : dumpInt n ++ rest = dumpNat n.natAbs ++ rest := by
      simp [dumpInt, hn, habs]
    obtain ⟨hm, _⟩ := isDigitCh_toNat hdig
    rw [harg, hct]
    simp only [List.cons_append, loadInt,
      if_neg (char_ne (d := '-') (n := 45) rfl (by omega : ¬ c.toNat = 45)), hdig, if_pos]
    rw [← List.cons_append, ← hct, loadDigits_dumpNat _ h]
    simp only [Option.some.injEq, Prod.mk.injEq]
    exact ⟨by omega, trivial⟩

/-! ## The value codec round-trip -/

theorem str_mk_data (s : String) : String.mk s.data = s := by
  cases s
  rfl

/-- The head of a rendered integer, with the dispatch facts `loadVal` needs. -/
theorem dumpInt_head (n : Int) :
    ∃ c t, dumpInt n = c :: t ∧ (c = '-' ∨ isDigitCh c = true) ∧
      isJsonWs c = false ∧ ¬ c = 'n' ∧ ¬ c = 't' ∧ ¬ c = 'f' ∧ ¬ c = '"' ∧
      ¬ c = '[' ∧ ¬ c = '{' ∧ ¬ c = ']' ∧ ¬ c = '}' := by
  by_cases hn : n < 0
  · refine ⟨'-', dumpNat n.natAbs, by simp [dumpInt, hn], Or.inl rfl, ?_⟩
    refine ⟨?_, ?_, ?_, ?_, ?_, ?_, ?_, ?_, ?_⟩ <;> decide
  · obtain ⟨c, t, hct, hdig⟩ := dumpNat_head n.toNat
    obtain ⟨hws, hfacts⟩ := digit_head_facts hdig
    exact ⟨c, t, by simp [dumpInt, hn, hct], Or.inr hdig, hws, hfacts⟩

/-- Every rendered value starts with a character that is not whitespace and
closes neither an array nor an object. -/
theorem dumpVal_head (j : Json) :
    ∃ c t, dumpVal j = c :: t ∧ isJsonWs c = false ∧ ¬ c = ']' ∧ ¬ c = '}' := by
  match j with
  | .num n =>
      obtain ⟨c, t, hct, _, hws, h⟩ := dumpInt_head n
      refine ⟨c, t, ?_, hws, h.2.2.2.2.2.2.1, h.2.2.2.2.2.2.2⟩
      simp [dumpVal, hct]
  | .null => refine ⟨'n', _, rfl, ?_, ?_, ?_⟩ <;> decide
  | .bool true => refine ⟨'t', _, rfl, ?_, ?_, ?_⟩ <;> decide
  | .bool false => refine ⟨'f', _, rfl, ?_, ?_, ?_⟩ <;> decide
  | .str s => refine ⟨'"', _, rfl, ?_, ?_, ?_⟩ <;> decide
  | .arr items => refine ⟨'[', _, rfl, ?_, ?_, ?_⟩ <;> decide
  | .obj entries => refine ⟨'{', _, rfl, ?_, ?_, ?_⟩ <;> decide

/-- `wsSkip` is the identity on rendered output. -/
theorem wsSkip_dumpVal (j : Json) (x : List Char) :
    wsSkip (dumpVal j ++ x) = dumpVal j ++ x := by
  obtain ⟨c, t, hct, hws, _, _⟩ := dumpVal_head j
  rw [hct, List.cons_append, wsSkip_not_ws hws]

theorem szV_pos (j : Json) : 1 ≤ szV j := by
  cases j <;> simp [szV]

/-! The input length bounds the budget, so `json_loads`'s fuel suffices. -/

mutual

theorem szV_le : ∀ j : Json, szV j ≤ (dumpVal j).length
  | .null => by simp [szV, dumpVal]
  | .bool b => by cases b <;> simp [szV, dumpVal]
  | .num n => by
      obtain ⟨c, t, hct, _⟩ := dumpInt_head n
      simp [szV, dumpVal, hct]
  | .str s => by simp [szV, dumpVal, dumpStr]
  | .arr items => by
      have h := szItems_le items
      simp only [szV, dumpVal, List.length_cons, List.length_append, List.length_singleton]
      omega
  | .obj entries => by
      have h := szEntries_le entries
      simp only [szV, dumpVal, List.length_cons, List.length_append, List.length_singleton]
      omega

theorem szItems_le : ∀ items : List Json, szItems items ≤ (dumpItems items).length + 1
  | [] => by simp [szItems, dumpItems]
  | [x] => by
      have h := szV_le x
      simp only [szItems, dumpItems]
      omega
  | x :: y :: xs => by
      have h1 := szV_le x
      have h2 := szItems_le (y :: xs)
      simp only [szItems, dumpItems, List.length_append, List.length_cons] at h2 ⊢
      omega

theorem szEntries_le : ∀ entries : List (String × Json),
    szEntries entries ≤ (dumpEntries entries).length + 1
  | [] => by simp [szEntries, dumpEntries]
  | [(k, v)] => by
      have h := szV_le v
      simp only [szEntries, dumpEntries, List.length_append, List.length_cons]
      omega
  | (k, v) :: e :: es => by
      have h1 := szV_le v
      have h2 := szEntries_le (e :: es)
      simp only [szEntries, dumpEntries, List.length_append, List.length_cons] at h2 ⊢
      omega

end

/-- Unfolding of `loadVal` at a number head (the if-chain, discharged). -/
theorem loadVal_numHead (f : Nat) {c : Char}
    (h1 : ¬ c = 'n') (h2 : ¬ c = 't') (h3 : ¬ c = 'f') (h4 : ¬ c = '"')
    (h5 : ¬ c = '[') (h6 : ¬ c = '{') (hnum : c = '-' ∨ isDigitCh c = true)
    (rest : List Char) :
    loadVal (f + 1) (c :: rest) = (loadInt (c :: rest)).map (fun p => (Json.num p.1, p.2)) := by
  rw [loadVal.eq_def]
  simp only [if_neg h1, if_neg h2, if_neg h3, if_neg h4, if_neg h5, if_neg h6, if_pos hnum]

/-- Unfolding of `loadVal` at `[` (definitional). -/
theorem loadVal_arrHead (f : Nat) (rest : List Char) :
    loadVal (f + 1) ('[' :: rest) =
      match wsSkip rest with
      | [] => none
      | c1 :: r1 =>
          if c1 = ']' then some (Json.arr [], r1)
          else (loadItems f (c1 :: r1)).map (fun p => (Json.arr p.1, p.2)) := rfl

/-- Unfolding of `loadVal` at `{` (definitional). -/
theorem loadVal_objHead (f : Nat) (rest : List Char) :
    loadVal (f + 1) ('{' :: rest) =
      match wsSkip rest with
      | [] => none
      | c1 :: r1 =>
          if c1 = '}' then some (Json.obj [], r1)
          else (loadEntries f (c1 :: r1)).map (fun p => (Json.obj p.1, p.2)) := rfl

/-- Unfolding of `loadItems` at successor fuel (definitional). -/
theorem loadItems_step (f : Nat) (cs : List Char) :
    loadItems (f + 1) cs =
      match loadVal f cs with
      | none => none
      | some (v, r) =>
          match wsSkip r with
          | ',' :: r2 => (loadItems f (wsSkip r2)).map (fun p => (v :: p.1, p.2))
          | ']' :: r2 => some ([v], r2)
          | _ => none := rfl

/-- Unfolding of `loadEntries` at a key head (definitional). -/
theorem loadEntries_keyHead (f : Nat) (r : List Char) :
    loadEntries (f + 1) ('"' :: r) =
      match loadStrBody (r.length + 1) r with
      | none => none
      | some (key, r1) =>
          match wsSkip r1 with
          | ':' :: r2 =>
              match loadVal f (wsSkip r2) with
              | none => none
              | some (v, r3) =>
                  match wsSkip r3 with
                  | ',' :: r4 =>
                      (loadEntries f (wsSkip r4)).map
                        (fun p => ((String.mk key, v) :: p.1, p.2))
                  | '}' :: r4 => some ([(String.mk key, v)], r4)
                  | _ => none
          | _ => none := rfl

/-- The string branch of `loadVal`, inverted via the string codec round-trip. -/
theorem loadVal_dumpStr (f : Nat) (s : String) (rest : List Char) :
    loadVal (f + 1) (dumpStr s ++ rest) = some (Json.str s, rest) := by
  have harg : dumpStr s ++ rest = '"' :: (dumpStrBody s.data ++ '"' :: rest) := by
    simp [dumpStr]
  rw [harg]
  have hred : loadVal (f + 1) ('"' :: (dumpStrBody s.data ++ '"' :: rest))
      = (loadStrBody ((dumpStrBody s.data ++ '"' :: rest).length + 1)
          (dumpStrBody s.data ++ '"' :: rest)).map
          (fun p => (Json.str (String.mk p.1), p.2)) := rfl
  rw [hred, loadStrBody_dumpStrBody s.data _ (by
    have := dumpStrBody_length s.data
    simp only [List.length_append, List.length_cons]
    omega) rest]
  simp [str_mk_data]

mutual

/-- The codec round-trip for one value: parsing its rendering recovers it,
in front of any remainder that cannot extend a digit run. -/
theorem loadVal_dumpVal : ∀ (j : Json) (f : Nat) (rest : List Char),
    szV j ≤ f → digitStop rest = true →
    loadVal f (dumpVal j ++ rest) = some (j, rest)
  | .null, f, rest, hf, _ => by
      obtain ⟨f', rfl⟩ : ∃ f', f = f' + 1 := ⟨f - 1, by have := szV_pos Json.null; omega⟩
      rfl
  | .bool true, f, rest, hf, _ => by
      obtain ⟨f', rfl⟩ : ∃ f', f = f' + 1 := ⟨f - 1, by have := szV_pos (Json.bool true); omega⟩
      rfl
  | .bool false, f, rest, hf, _ => by
      obtain ⟨f', rfl⟩ : ∃ f', f = f' + 1 := ⟨f - 1, by have := szV_pos (Json.bool false); omega⟩
      rfl
  | .num n, f, rest, hf, hrest => by
      obtain ⟨f', rfl⟩ : ∃ f', f = f' + 1 := ⟨f - 1, by have := szV_pos (Json.num n); omega⟩
      obtain ⟨c, t, hct, hnum, _, h1, h2, h3, h4, h5, h6, _, _⟩ := dumpInt_head n
      have harg : dumpVal (Json.num n) ++ rest = c :: (t ++ rest) := by
        simp [dumpVal, hct]
      rw [harg, loadVal_numHead f' h1 h2 h3 h4 h5 h6 hnum, ← List.cons_append, ← hct,
        ← show dumpVal (Json.num n) = dumpInt n from rfl, show dumpVal (Json.num n) = dumpInt n from rfl,
        loadInt_dumpInt n hrest]
      rfl
  | .str s, f, rest, hf, _ => by
      obtain ⟨f', rfl⟩ : ∃ f', f = f' + 1 := ⟨f - 1, by have := szV_pos (Json.str s); omega⟩
      exact loadVal_dumpStr f' s rest
  | .arr [], f, rest, hf, _ => by
      obtain ⟨f', rfl⟩ : ∃ f', f = f' + 1 := ⟨f - 1, by have := szV_pos (Json.arr []); omega⟩
      rfl
  | .arr (x :: xs), f, rest, hf, _ => by
      obtain ⟨f', rfl⟩ : ∃ f', f = f' + 1 := ⟨f - 1, by have := szV_pos (Json.arr (x :: xs)); omega⟩
      obtain ⟨c1, t1, hct, hws, hbr, _⟩ := dumpVal_head x
      have hhd : dumpItems (x :: xs) ++ ']' :: rest = c1 :: (t1 ++ dumpItemsTail xs ++ ']' :: rest) := by
        cases xs <;> simp [dumpItems, dumpItemsTail, hct]
      have harg : dumpVal (Json.arr (x :: xs)) ++ rest
          = '[' :: (dumpItems (x :: xs) ++ ']' :: rest) := by
        simp [dumpVal]
      rw [harg, loadVal_arrHead, hhd, wsSkip_not_ws hws]
      simp only [if_neg hbr]
      rw [← hhd, loadItems_dumpItems x xs f' rest (by
        simp only [szV, szItems] at hf ⊢
        omega)]
      rfl
  | .obj [], f, rest, hf, _ => by
      obtain ⟨f', rfl⟩ : ∃ f', f = f' + 1 := ⟨f - 1, by have := szV_pos (Json.obj []); omega⟩
      rfl
  | .obj (e :: es), f, rest, hf, _ => by
      obtain ⟨f', rfl⟩ : ∃ f', f = f' + 1 := ⟨f - 1, by have := szV_pos (Json.obj (e :: es)); omega⟩
      have hhd : ∃ t1, dumpEntries (e :: es) ++ '}' :: rest = '"' :: t1 := by
        obtain ⟨k, v⟩ := e
        cases es with
        | nil => exact ⟨_, rfl⟩
        | cons e' es' => exact ⟨_, rfl⟩
      obtain ⟨t1, ht1⟩ := hhd
      have harg : dumpVal (Json.obj (e :: es)) ++ rest
          = '{' :: (dumpEntries (e :: es) ++ '}' :: rest) := by
        simp [dumpVal]
      rw [harg, loadVal_objHead, ht1, wsSkip_not_ws (by decide)]
      simp only [if_neg (show ¬ ('"' : Char) = '}' by decide)]
      rw [← ht1, loadEntries_dumpEntries e es f' rest (by
        simp only [szV] at hf
        omega)]
      rfl
termination_by j _ _ _ _ => sizeOf j

/-- The items round-trip: a nonempty rendered item list parses back. -/
theorem loadItems_dumpItems : ∀ (x : Json) (xs : List Json) (f : Nat) (rest : List Char),
    szItems (x :: xs) ≤ f →
    loadItems f (dumpItems (x :: xs) ++ ']' :: rest) = some (x :: xs, rest)
  | x, [], f, rest, hf => by
      obtain ⟨f', rfl⟩ : ∃ f', f = f' + 1 := ⟨f - 1, by simp [szItems] at hf; omega⟩
      have harg : dumpItems [x] ++ ']' :: rest = dumpVal x ++ ']' :: rest := by
        simp [dumpItems]
      rw [harg, loadItems_step,
        loadVal_dumpVal x f' (']' :: rest) (by simp [szItems] at hf; omega) rfl]
      rfl
  | x, y :: ys, f, rest, hf => by
      obtain ⟨f', rfl⟩ : ∃ f', f = f' + 1 := ⟨f - 1, by
        have := szV_pos x
        simp [szItems] at hf
        omega⟩
      have harg : dumpItems (x :: y :: ys) ++ ']' :: rest
          = dumpVal x ++ ',' :: ' ' :: (dumpItems (y :: ys) ++ ']' :: rest) := by
        simp [dumpItems]
      rw [harg, loadItems_step,
        loadVal_dumpVal x f' (',' :: ' ' :: (dumpItems (y :: ys) ++ ']' :: rest)) (by
          simp [szItems] at hf
          omega) rfl]
      have hskip : wsSkip (' ' :: (dumpItems (y :: ys) ++ ']' :: rest))
          = dumpItems (y :: ys) ++ ']' :: rest := by
        obtain ⟨c1, t1, hct, hws, _, _⟩ := dumpVal_head y
        have : dumpItems (y :: ys) ++ ']' :: rest = c1 :: (t1 ++ dumpItemsTail ys ++ ']' :: rest) := by
          cases ys <;> simp [dumpItems, dumpItemsTail, hct]
        rw [show wsSkip (' ' :: (dumpItems (y :: ys) ++ ']' :: rest))
            = wsSkip (dumpItems (y :: ys) ++ ']' :: rest) from rfl, this, wsSkip_not_ws hws]
      have hrec := loadItems_dumpItems y ys f' rest (by
        simp [szItems] at hf ⊢
        omega)
      show (match wsSkip (',' :: ' ' :: (dumpItems (y :: ys) ++ ']' :: rest)) with
        | ',' :: r2 => (loadItems f' (wsSkip r2)).map (fun p => (x :: p.1, p.2))
        | ']' :: r2 => some ([x], r2)
        | _ => none) = some (x :: y :: ys, rest)
      rw [show wsSkip (',' :: ' ' :: (dumpItems (y :: ys) ++ ']' :: rest))
          = ',' :: ' ' :: (dumpItems (y :: ys) ++ ']' :: rest) from rfl]
      show (loadItems f' (wsSkip (' ' :: (dumpItems (y :: ys) ++ ']' :: rest)))).map
          (fun p => (x :: p.1, p.2)) = some (x :: y :: ys, rest)
      rw [hskip, hrec]
      rfl
termination_by x xs _ _ _ => sizeOf x + sizeOf xs

/-- The entries round-trip: a nonempty rendered entry list parses back. -/
theorem loadEntries_dumpEntries :
    ∀ (e : String × Json) (es : List (String × Json)) (f : Nat) (rest : List Char),
    szEntries (e :: es) ≤ f →
    loadEntries f (dumpEntries (e :: es) ++ '}' :: rest) = some (e :: es, rest)
  | (k, v), es, f, rest, hf => by
      obtain ⟨f', rfl⟩ : ∃ f', f = f' + 1 := ⟨f - 1, by
        have := szV_pos v
        simp [szEntries] at hf
        omega⟩
      have htail : ∃ z, dumpEntries ((k, v) :: es) ++ '}' :: rest
          = '"' :: (dumpStrBody k.data ++ '"' :: (':' :: ' ' :: (dumpVal v ++ z)))
          ∧ ((es = [] ∧ z = '}' :: rest) ∨
             (∃ e' es', es = e' :: es' ∧ z = ',' :: ' ' :: (dumpEntries (e' :: es') ++ '}' :: rest))) := by
        cases es with
        | nil =>
            exact ⟨'}' :: rest,
              by simp [dumpEntries, dumpStr, List.append_assoc, List.cons_append],
              Or.inl ⟨rfl, rfl⟩⟩
        | cons e' es' =>
            exact ⟨',' :: ' ' :: (dumpEntries (e' :: es') ++ '}' :: rest),
              by simp [dumpEntries, dumpStr, List.append_assoc, List.cons_append],
              Or.inr ⟨e', es', rfl, rfl⟩⟩
      obtain ⟨z, hz, hcase⟩ := htail
      have hzstop : digitStop z = true := by
        rcases hcase with ⟨_, rfl⟩ | ⟨e', es', _, rfl⟩ <;> rfl
      rw [hz, loadEntries_keyHead,
        loadStrBody_dumpStrBody k.data _ (by
          have := dumpStrBody_length k.data
          simp only [List.length_append, List.length_cons]
          omega) _]
      show (match wsSkip (':' :: ' ' :: (dumpVal v ++ z)) with
        | ':' :: r2 =>
            match loadVal f' (wsSkip r2) with
            | none => none
            | some (v', r3) =>
                match wsSkip r3 with
                | ',' :: r4 =>
                    (loadEntries f' (wsSkip r4)).map
                      (fun p => ((String.mk k.data, v') :: p.1, p.2))
                | '}' :: r4 => some ([(String.mk k.data, v')], r4)
                | _ => none
        | _ => none) = some ((k, v) :: es, rest)
      rw [show wsSkip (':' :: ' ' :: (dumpVal v ++ z)) = ':' :: ' ' :: (dumpVal v ++ z) from rfl]
      show (match loadVal f' (wsSkip (' ' :: (dumpVal v ++ z))) with
        | none => none
        | some (v', r3) =>
            match wsSkip r3 with
            | ',' :: r4 =>
                (loadEntries f' (wsSkip r4)).map (fun p => ((String.mk k.data, v') :: p.1, p.2))
            | '}' :: r4 => some ([(String.mk k.data, v')], r4)
            | _ => none) = some ((k, v) :: es, rest)
      rw [show wsSkip (' ' :: (dumpVal v ++ z)) = wsSkip (dumpVal v ++ z) from rfl,
        wsSkip_dumpVal v z,
        loadVal_dumpVal v f' z (by simp [szEntries] at hf; omega) hzstop]
      rcases hcase with ⟨rfl, rfl⟩ | ⟨e', es', rfl, rfl⟩
      · rfl
      · have hskip : wsSkip (' ' :: (dumpEntries (e' :: es') ++ '}' :: rest))
            = dumpEntries (e' :: es') ++ '}' :: rest := by
          have hq : ∃ t1, dumpEntries (e' :: es') ++ '}' :: rest = '"' :: t1 := by
            obtain ⟨k', v'⟩ := e'
            cases es' with
            | nil => exact ⟨_, rfl⟩
            | cons e2 es2 => exact ⟨_, rfl⟩
          obtain ⟨t1, ht1⟩ := hq
          rw [show wsSkip (' ' :: (dumpEntries (e' :: es') ++ '}' :: rest))
              = wsSkip (dumpEntries (e' :: es') ++ '}' :: rest) from rfl, ht1,
            wsSkip_not_ws (by decide)]
        show (loadEntries f' (wsSkip (' ' :: (dumpEntries (e' :: es') ++ '}' :: rest)))).map
            (fun p => ((String.mk k.data, v) :: p.1, p.2)) = some ((k, v) :: (e' :: es'), rest)
        rw [hskip, loadEntries_dumpEntries e' es' f' rest (by
          simp [szEntries] at hf ⊢
          omega)]
        rfl
termination_by e es _ _ _ => sizeOf e + sizeOf es

end

/-! ## The document round-trip -/

/-- `json.loads(json.dumps(j)) == j` on the modeled fragment. -/
theorem json_loads_dumps (j : Json) : json_loads (json_dumps j) = some j := by
  obtain ⟨c, t, hct, hws, _, _⟩ := dumpVal_head j
  have hdata : (json_dumps j).data = dumpVal j := rfl
  rw [json_loads, hdata, hct, wsSkip_not_ws hws, ← hct]
  have h := loadVal_dumpVal j ((dumpVal j).length + 1) []
    (by have := szV_le j; omega) rfl
  rw [List.append_nil] at h
  rw [h]
  rfl

/-- Stripping a rendered line that starts and ends with non-whitespace
and carries one trailing newline removes exactly the newline. -/
theorem pyStrip_wrap {c d : Char} (hc : isPySpace c = false) (hd : isPySpace d = false)
    (mid : List Char) :
    pyStrip (String.mk (c :: (mid ++ [d]) ++ ['\n'])) = String.mk (c :: (mid ++ [d])) := by
  rw [pyStrip]
  have h1 : ((String.mk (c :: (mid ++ [d]) ++ ['\n'])).data).dropWhile isPySpace
      = c :: ((mid ++ [d]) ++ ['\n']) := by
    show (c :: ((mid ++ [d]) ++ ['\n'])).dropWhile isPySpace = c :: ((mid ++ [d]) ++ ['\n'])
    simp [List.dropWhile_cons, hc]
  rw [h1]
  have h2 : (c :: ((mid ++ [d]) ++ ['\n'])).reverse
      = '\n' :: (d :: (mid.reverse ++ [c])) := by
    simp
  rw [h2]
  have h3 : ('\n' :: (d :: (mid.reverse ++ [c]))).dropWhile isPySpace
      = d :: (mid.reverse ++ [c]) := by
    rw [List.dropWhile_cons]
    simp only [show isPySpace '\n' = true from rfl, if_true, List.dropWhile_cons, hd]
    simp
  rw [h3]
  congr 1
  simp

/-- The serialized request line, stripped as the reading side strips a
line, is exactly the rendered request object. -/
theorem pyStrip_serializeRequest (r : Request) :
    pyStrip (serializeRequest r) = json_dumps (requestToJson r) := by
  have hdata : serializeRequest r
      = String.mk ('{' :: (dumpEntries [("jsonrpc", Json.str "2.0"), ("id", Json.num r.id),
          ("method", Json.str r.method), ("params", r.params)] ++ ['}']) ++ ['\n']) := rfl
  rw [hdata, pyStrip_wrap (by decide) (by decide)]
  rfl

/-! ## Behavior of the embedded clients -/

/-- A rendered object line, stripped, is the rendered object. -/
theorem pyStrip_dumps_obj (entries : List (String × Json)) :
    pyStrip (json_dumps (Json.obj entries) ++ "\n") = json_dumps (Json.obj entries) := by
  have h : json_dumps (Json.obj entries) ++ "\n"
      = String.mk ('{' :: (dumpEntries entries ++ ['}']) ++ ['\n']) := rfl
  rw [h, pyStrip_wrap (by decide) (by decide)]
  rfl

/-- A rendered object is never the empty string. -/
theorem json_dumps_obj_ne_empty (entries : List (String × Json)) :
    ¬ json_dumps (Json.obj entries) = "" := by
  intro h
  have h2 := congrArg String.data h
  simp only [json_dumps] at h2
  exact absurd h2 (by simp [dumpVal])

/-- `send_request` on a started client against a waiting line: one read,
strip, decode (definitional). -/
theorem send_request_line (req : Json) (raw : String) (ls : List String) (b : Bool) :
    (send_request true req ⟨raw :: ls, b⟩).result =
      (if pyStrip raw = "" then .exn "Empty response received"
       else
         match json_loads (pyStrip raw) with
         | some resp => .ok resp
         | none => .exn ("Invalid JSON response: " ++ pyStrip raw ++ " - Error: " ++ jsonErrText)) :=
  rfl

/-- A served object line is delivered as that object, whatever the request
said. -/
theorem send_request_obj_line (req : Json) (entries : List (String × Json))
    (ls : List String) (b : Bool) :
    (send_request true req ⟨(json_dumps (Json.obj entries) ++ "\n") :: ls, b⟩).result
      = .ok (Json.obj entries) := by
  rw [send_request_line, pyStrip_dumps_obj,
    if_neg (json_dumps_obj_ne_empty entries), json_loads_dumps]

/-- `call_tool` on a served object line: the exact shape of the reply dict
is decided by the `result`/`error` keys of the parsed object. -/
theorem call_tool_obj_line (rid : Nat) (tool : String) (args : Json)
    (entries : List (String × Json)) (ls : List String) (b : Bool) :
    (call_tool ⟨true, rid⟩ tool args ⟨(json_dumps (Json.obj entries) ++ "\n") :: ls, b⟩).result
      = (if ((Json.obj entries).getField "result").isSome then
           .dict (successDict (((Json.obj entries).getField "result").getD .null))
         else if ((Json.obj entries).getField "error").isSome then
           .dict (errorDict (((Json.obj entries).getField "error").getD .null))
         else .dict (errorDict (.str "No result or error in response"))) := by
  have h := send_request_obj_line (toolCallRequest rid tool args) entries ls b
  show (match (send_request true (toolCallRequest rid tool args)
      ⟨(json_dumps (Json.obj entries) ++ "\n") :: ls, b⟩).result with
    | .ok resp =>
        if (resp.getField "result").isSome then
          CallResult.dict (successDict ((resp.getField "result").getD .null))
        else if (resp.getField "error").isSome then
          CallResult.dict (errorDict ((resp.getField "error").getD .null))
        else CallResult.dict (errorDict (.str "No result or error in response"))
    | .exn msg => CallResult.dict (errorDict (.str msg))
    | .hangs => CallResult.hangs) = _
  rw [h]

/-! ## The claims -/

/-- C1 (amended): the clients do no id matching at all.  The outcome of
`send_request` and the stream it leaves behind are independent of the
request — in particular of the request's `id` — and a served object line
is delivered as the parsed object to whichever call reads next.
Responses are therefore matched by arrival order, not by `id`. -/
theorem c1_theorem :
    (∀ (started : Bool) (req req' : Json) (sv : ServerScript),
      (send_request started req sv).result = (send_request started req' sv).result ∧
      (send_request started req sv).rest = (send_request started req' sv).rest) ∧
    (∀ (req : Json) (entries : List (String × Json)) (ls : List String) (b : Bool),
      (send_request true req ⟨(json_dumps (Json.obj entries) ++ "\n") :: ls, b⟩).result
        = .ok (Json.obj entries)) := by
  constructor
  · intro started req req' sv
    cases started <;> exact ⟨rfl, rfl⟩
  · intro req entries ls b
    exact send_request_obj_line req entries ls b

/-- C1 counterexample: with the request carrying id 5 outstanding, an
inbound Response whose id is 999 (matching no outstanding call) is NOT
silently dropped — `call_tool` delivers its `result` to the caller as a
success. -/
theorem c1_counterexample :
    (call_tool ⟨true, 5⟩ "get-GLEIF-data" gleifArgs
        ⟨["\x7b\"jsonrpc\": \"2.0\", \"id\": 999, \"result\": 7\x7d\n"], true⟩).result
      = .dict (successDict (.num 7)) ∧
    (toolCallRequest 5 "get-GLEIF-data" gleifArgs).getField "id" = some (.num 5) ∧
    json_loads (pyStrip "\x7b\"jsonrpc\": \"2.0\", \"id\": 999, \"result\": 7\x7d\n")
      = some mismatchResponse ∧
    mismatchResponse.getField "id" = some (.num 999) :=
  ⟨rfl, rfl, rfl, rfl⟩

/-- C2 (amended): the standalone/interactive clients stamp their requests
from a counter that starts at 1 and is bumped by one on every request
(`initialize` and `call_tool` alike), so a session's ids are `1, 2, …` —
unique and strictly increasing. -/
theorem c2_theorem :
    (∀ (c : SaClient) (k : Nat), idTrace c k = List.range' c.request_id k) ∧
    (∀ k : Nat, idTrace saClientInit k = List.range' 1 k) ∧
    (∀ k : Nat, (idTrace saClientInit k).Nodup) ∧
    (∀ k : Nat, (idTrace saClientInit k).Pairwise (· < ·)) ∧
    (∀ (c : SaClient) (tool : String) (args : Json) (sv : ServerScript),
      (call_tool c tool args sv).client.request_id = c.request_id + 1) ∧
    (∀ (c : SaClient) (n : String) (sv : ServerScript),
      (initializeCall c n sv).2.request_id = c.request_id + 1) ∧
    (∀ (rid : Nat) (tool : String) (args : Json) (sv : ServerScript),
      (call_tool ⟨true, rid⟩ tool args sv).sent
        = [json_dumps (toolCallRequest rid tool args) ++ "\n"]) := by
  have htrace : ∀ (k : Nat) (c : SaClient), idTrace c k = List.range' c.request_id k := by
    intro k
    induction k with
    | zero => intro c; rfl
    | succ k ih =>
        intro c
        simp [idTrace, allocId, List.range', ih]
  refine ⟨fun c k => htrace k c, fun k => htrace k saClientInit, ?_, ?_, fun _ _ _ _ => rfl,
    fun _ _ _ => rfl, ?_⟩
  · intro k
    rw [htrace k saClientInit]
    exact List.nodup_range' _ _
  · intro k
    rw [htrace k saClientInit]
    exact List.pairwise_lt_range' _ _
  · intro rid tool args sv
    rcases sv with ⟨ls, b⟩
    cases ls with
    | nil => cases b <;> rfl
    | cons l ls => rfl

/-- C2 counterexample: the uAgent wrapper stamps EVERY tools/call request
with the literal id 2 (and the handshake with 1): two successive tool
calls in one session carry the same id, so the session's allocated ids
are neither unique nor strictly increasing. -/
theorem c2_counterexample :
    (wrapper_call_tool true "get-GLEIF-data" gleifArgs .eof).sent
      = [json_dumps (wrapperToolRequest "get-GLEIF-data" gleifArgs) ++ "\n"] ∧
    (wrapper_call_tool true "get-EXIM-data" eximArgs .eof).sent
      = [json_dumps (wrapperToolRequest "get-EXIM-data" eximArgs) ++ "\n"] ∧
    (wrapperToolRequest "get-GLEIF-data" gleifArgs).getField "id" = some (.num 2) ∧
    (wrapperToolRequest "get-EXIM-data" eximArgs).getField "id" = some (.num 2) ∧
    wrapperInitRequest.getField "id" = some (.num 1) :=
  ⟨rfl, rfl, rfl, rfl, rfl⟩

/-- C3 (amended): against a server that never replies, the standalone and
interactive clients fail the call with the `wait_for` timeout error
(surfaced as a `success: False` dict), while the uAgent wrapper — whose
`readline()` has no timeout — never returns at all. -/
theorem c3_theorem :
    (∀ (rid : Nat) (tool : String) (args : Json),
      (call_tool ⟨true, rid⟩ tool args ⟨[], false⟩).result
        = .dict (errorDict (.str "Response timeout"))) ∧
    (∀ (tool : String) (args : Json),
      (wrapper_call_tool true tool args .noLine).outcome = CallResult.hangs) :=
  ⟨fun _ _ _ => rfl, fun _ _ => rfl⟩

/-- C3 counterexample: the uAgent wrapper's call against a silent server
hangs instead of failing with a timeout error after any deadline. -/
theorem c3_counterexample :
    (wrapper_call_tool true "get-GLEIF-data" gleifArgs .noLine).outcome = CallResult.hangs ∧
    CallResult.hangs ≠ CallResult.dict (errorDict (.str "Response timeout")) :=
  ⟨rfl, fun h => CallResult.noConfusion h⟩

/-- C4 (amended): the standalone/interactive `call_tool` satisfies the
full contract — `result` key → success dict, `error` key → the server's
error object, neither key → a fixed failure, raised failures (EOF,
timeout) → `success: False` dicts.  The uAgent wrapper keeps only the
`result` branch: an error Response is collapsed to the fixed message
`"No result in MCP response"` (the server's error object is dropped) and
EOF yields Python `None` instead of a dict. -/
theorem c4_theorem :
    (∀ (rid : Nat) (tool : String) (args : Json) (entries : List (String × Json))
        (ls : List String) (b : Bool) (v : Json),
      (Json.obj entries).getField "result" = some v →
      (call_tool ⟨true, rid⟩ tool args ⟨(json_dumps (Json.obj entries) ++ "\n") :: ls, b⟩).result
        = .dict (successDict v)) ∧
    (∀ (rid : Nat) (tool : String) (args : Json) (entries : List (String × Json))
        (ls : List String) (b : Bool) (e : Json),
      (Json.obj entries).getField "result" = none →
      (Json.obj entries).getField "error" = some e →
      (call_tool ⟨true, rid⟩ tool args ⟨(json_dumps (Json.obj entries) ++ "\n") :: ls, b⟩).result
        = .dict (errorDict e)) ∧
    (∀ (rid : Nat) (tool : String) (args : Json) (entries : List (String × Json))
        (ls : List String) (b : Bool),
      (Json.obj entries).getField "result" = none →
      (Json.obj entries).getField "error" = none →
      (call_tool ⟨true, rid⟩ tool args ⟨(json_dumps (Json.obj entries) ++ "\n") :: ls, b⟩).result
        = .dict (errorDict (.str "No result or error in response"))) ∧
    (∀ (rid : Nat) (tool : String) (args : Json),
      (call_tool ⟨true, rid⟩ tool args ⟨[], true⟩).result
        = .dict (errorDict (.str "No response received")) ∧
      (call_tool ⟨true, rid⟩ tool args ⟨[], false⟩).result
        = .dict (errorDict (.str "Response timeout"))) ∧
    (∀ (tool : String) (args : Json) (entries : List (String × Json)),
      (Json.obj entries).getField "result" = none →
      (wrapper_call_tool true tool args
          (.line (json_dumps (Json.obj entries) ++ "\n"))).outcome
        = .dict (errorDict (.str "No result in MCP response"))) ∧
    (∀ (tool : String) (args : Json),
      (wrapper_call_tool true tool args .eof).outcome = CallResult.pyNone) := by
  refine ⟨?_, ?_, ?_, fun _ _ _ => ⟨rfl, rfl⟩, ?_, fun _ _ => rfl⟩
  · intro rid tool args entries ls b v hv
    rw [call_tool_obj_line, hv]
    rfl
  · intro rid tool args entries ls b e hres herr
    rw [call_tool_obj_line, hres, herr]
    rfl
  · intro rid tool args entries ls b hres herr
    rw [call_tool_obj_line, hres, herr]
    rfl
  · intro tool args entries hres
    show (match json_loads (pyStrip (json_dumps (Json.obj entries) ++ "\n")) with
      | none => CallResult.dict (errorDict (.str jsonErrText))
      | some resp =>
          if (resp.getField "result").isSome then
            CallResult.dict (successDict ((resp.getField "result").getD .null))
          else CallResult.dict (errorDict (.str "No result in MCP response"))) = _
    rw [pyStrip_dumps_obj, json_loads_dumps]
    show (if ((Json.obj entries).getField "result").isSome then
        CallResult.dict (successDict (((Json.obj entries).getField "result").getD .null))
      else CallResult.dict (errorDict (.str "No result in MCP response"))) = _
    rw [hres]
    rfl

/-- C4 counterexample: an error Response through the uAgent wrapper: the
caller receives the fixed `"No result in MCP response"` text, not the
server's `error` object `rpcErrorObj`. -/
theorem c4_counterexample :
    (wrapper_call_tool true "get-GLEIF-data" gleifArgs
        (.line "\x7b\"jsonrpc\": \"2.0\", \"id\": 2, \"error\": \x7b\"code\": -32601, \"message\": \"Method not found\"\x7d\x7d\n")).outcome
      = .dict (errorDict (.str "No result in MCP response")) ∧
    json_loads (pyStrip "\x7b\"jsonrpc\": \"2.0\", \"id\": 2, \"error\": \x7b\"code\": -32601, \"message\": \"Method not found\"\x7d\x7d\n")
      = some rpcErrorResponse ∧
    rpcErrorResponse.getField "error" = some rpcErrorObj :=
  ⟨rfl, rfl, rfl⟩

/-- C4 witness: the success branch at a concrete Response, and the
wrapper's `None` on EOF. -/
theorem c4_witness :
    (call_tool ⟨true, 2⟩ "get-GLEIF-data" gleifArgs
        ⟨[json_dumps (Json.obj [("jsonrpc", Json.str "2.0"), ("id", Json.num 2),
            ("result", Json.num 7)]) ++ "\n"], true⟩).result
      = .dict (successDict (.num 7)) ∧
    (wrapper_call_tool true "get-GLEIF-data" gleifArgs .eof).outcome = CallResult.pyNone :=
  ⟨c4_theorem.1 2 "get-GLEIF-data" gleifArgs
      [("jsonrpc", Json.str "2.0"), ("id", Json.num 2), ("result", Json.num 7)] [] true
      (Json.num 7) rfl,
   c4_theorem.2.2.2.2.2 "get-GLEIF-data" gleifArgs⟩

/-- C5 (amended): a line that is not valid JSON makes the in-flight call
fail with the `Invalid JSON response` error — converted by `call_tool`
into a `success: False` dict, so the Session does not crash — but the
line is consumed by that call and the following (valid) Response stays
unread: it is NOT delivered to that caller. -/
theorem c5_theorem :
    (∀ (rid : Nat) (tool : String) (args : Json) (raw : String)
        (ls : List String) (b : Bool),
      json_loads (pyStrip raw) = none → ¬ pyStrip raw = "" →
      (call_tool ⟨true, rid⟩ tool args ⟨raw :: ls, b⟩).result
          = .dict (errorDict (.str ("Invalid JSON response: " ++ pyStrip raw
              ++ " - Error: " ++ jsonErrText))) ∧
      (call_tool ⟨true, rid⟩ tool args ⟨raw :: ls, b⟩).rest = ⟨ls, b⟩) ∧
    (∀ (rid : Nat) (tool : String) (args : Json) (sv : ServerScript),
      ∃ d, (call_tool ⟨true, rid⟩ tool args sv).result = CallResult.dict d) := by
  constructor
  · intro rid tool args raw ls b hnone hne
    constructor
    · show (match (send_request true (toolCallRequest rid tool args) ⟨raw :: ls, b⟩).result with
        | .ok resp =>
            if (resp.getField "result").isSome then
              CallResult.dict (successDict ((resp.getField "result").getD .null))
            else if (resp.getField "error").isSome then
              CallResult.dict (errorDict ((resp.getField "error").getD .null))
            else CallResult.dict (errorDict (.str "No result or error in response"))
        | .exn msg => CallResult.dict (errorDict (.str msg))
        | .hangs => CallResult.hangs) = _
      rw [send_request_line, if_neg hne, hnone]
    · rfl
  · intro rid tool args sv
    rcases sv with ⟨ls, b⟩
    cases ls with
    | nil => cases b <;> exact ⟨_, rfl⟩
    | cons raw ls =>
        show ∃ d, (match (send_request true (toolCallRequest rid tool args)
            ⟨raw :: ls, b⟩).result with
          | .ok resp =>
              if (resp.getField "result").isSome then
                CallResult.dict (successDict ((resp.getField "result").getD .null))
              else if (resp.getField "error").isSome then
                CallResult.dict (errorDict ((resp.getField "error").getD .null))
              else CallResult.dict (errorDict (.str "No result or error in response"))
          | .exn msg => CallResult.dict (errorDict (.str msg))
          | .hangs => CallResult.hangs) = CallResult.dict d
        rw [send_request_line]
        by_cases h1 : pyStrip raw = ""
        · rw [if_pos h1]
          exact ⟨_, rfl⟩
        · rw [if_neg h1]
          cases hjl : json_loads (pyStrip raw) with
          | none => exact ⟨_, rfl⟩
          | some resp =>
              show ∃ d, (if (resp.getField "result").isSome then
                  CallResult.dict (successDict ((resp.getField "result").getD Json.null))
                else if (resp.getField "error").isSome then
                  CallResult.dict (errorDict ((resp.getField "error").getD Json.null))
                else CallResult.dict (errorDict (Json.str "No result or error in response")))
                  = CallResult.dict d
              by_cases h2 : (resp.getField "result").isSome
              · rw [if_pos h2]
                exact ⟨_, rfl⟩
              · rw [if_neg h2]
                by_cases h3 : (resp.getField "error").isSome
                · rw [if_pos h3]
                  exact ⟨_, rfl⟩
                · rw [if_neg h3]
                  exact ⟨_, rfl⟩

/-- C5 counterexample: a non-JSON line followed by a valid Response that
matches the outstanding id 5: the call fails with the `Invalid JSON
response` error and the valid Response is left unread — it is not
delivered to that caller. -/
theorem c5_counterexample :
    (call_tool ⟨true, 5⟩ "get-GLEIF-data" gleifArgs
        ⟨["not json\n", "\x7b\"jsonrpc\": \"2.0\", \"id\": 5, \"result\": 7\x7d\n"], true⟩).result
      = .dict (errorDict (.str ("Invalid JSON response: not json - Error: " ++ jsonErrText))) ∧
    (call_tool ⟨true, 5⟩ "get-GLEIF-data" gleifArgs
        ⟨["not json\n", "\x7b\"jsonrpc\": \"2.0\", \"id\": 5, \"result\": 7\x7d\n"], true⟩).rest
      = ⟨["\x7b\"jsonrpc\": \"2.0\", \"id\": 5, \"result\": 7\x7d\n"], true⟩ ∧
    json_loads (pyStrip "\x7b\"jsonrpc\": \"2.0\", \"id\": 5, \"result\": 7\x7d\n")
      = some (.obj [("jsonrpc", .str "2.0"), ("id", .num 5), ("result", .num 7)]) :=
  ⟨rfl, rfl, rfl⟩

/-- C5 witness: the non-JSON-line branch at a concrete input. -/
theorem c5_witness :
    (call_tool ⟨true, 1⟩ "get-GLEIF-data" gleifArgs ⟨["not json\n"], true⟩).result
      = .dict (errorDict (.str ("Invalid JSON response: " ++ pyStrip "not json\n"
          ++ " - Error: " ++ jsonErrText))) :=
  (c5_theorem.1 1 "get-GLEIF-data" gleifArgs "not json\n" [] true rfl (by decide)).1

/-- C6 (amended): on EOF with a call outstanding (these synchronous
clients have at most one), the standalone/interactive call fails with the
`No response received` error (surfaced as a `success: False` dict) rather
than hanging; the uAgent wrapper's call does not hang either, but it
returns Python `None` instead of failing with a connection-closed
error. -/
theorem c6_theorem :
    (∀ (rid : Nat) (tool : String) (args : Json),
      (call_tool ⟨true, rid⟩ tool args ⟨[], true⟩).result
        = .dict (errorDict (.str "No response received"))) ∧
    (∀ req : Json, (send_request true req ⟨[], true⟩).result = .exn "No response received") ∧
    (∀ (tool : String) (args : Json),
      (wrapper_call_tool true tool args .eof).outcome = CallResult.pyNone ∧
      (wrapper_call_tool true tool args .eof).outcome ≠ CallResult.hangs) :=
  ⟨fun _ _ _ => rfl, fun _ => rfl, fun _ _ => ⟨rfl, fun h => CallResult.noConfusion h⟩⟩

/-- C6 counterexample: the uAgent wrapper's outstanding call, on EOF,
yields Python `None` — it does not fail with a connection-closed error
(no dict at all is returned). -/
theorem c6_counterexample :
    (wrapper_call_tool true "get-GLEIF-data" gleifArgs .eof).outcome = CallResult.pyNone ∧
    CallResult.pyNone ≠ CallResult.dict (errorDict (.str "ConnectionClosedError")) :=
  ⟨rfl, fun h => CallResult.noConfusion h⟩

/-- C7 (confirmed): serializing a Request to its newline-terminated JSON
line and parsing the line back (strip, then `json.loads`) recovers
exactly the original `id`, `method` and `params`. -/
theorem c7_theorem (r : Request) :
    json_loads (pyStrip (serializeRequest r)) = some (requestToJson r) ∧
    (requestToJson r).getField "id" = some (.num r.id) ∧
    (requestToJson r).getField "method" = some (.str r.method) ∧
    (requestToJson r).getField "params" = some r.params := by
  refine ⟨?_, rfl, rfl, rfl⟩
  rw [pyStrip_serializeRequest, json_loads_dumps]

/-- C8 (confirmed): `cleanup` never lets an exception escape, is a no-op
on a never-started or already-terminated session, and is idempotent; the
interactive variant behaves the same.  (`terminate()` only sends a
signal, so `cleanup` cannot block.) -/
theorem c8_theorem :
    (∀ s : SaSession, (cleanup s).2 = false) ∧
    cleanup ⟨none⟩ = (⟨none⟩, false) ∧
    cleanup ⟨some .exited⟩ = (⟨some .exited⟩, false) ∧
    (∀ s : SaSession, cleanup (cleanup s).1 = ((cleanup s).1, false)) ∧
    (∀ s : InteractiveSession, (interactiveCleanup s).2 = false) ∧
    (∀ b : Bool, interactiveCleanup ⟨none, b⟩ = (⟨none, b⟩, false)) ∧
    (∀ s : InteractiveSession,
      interactiveCleanup (interactiveCleanup s).1 = ((interactiveCleanup s).1, false)) := by
  refine ⟨?_, rfl, rfl, ?_, ?_, fun _ => rfl, ?_⟩
  · rintro ⟨_ | p⟩
    · rfl
    · cases p <;> rfl
  · rintro ⟨_ | p⟩
    · rfl
    · cases p <;> rfl
  · rintro ⟨_ | p, _⟩
    · rfl
    · cases p <;> rfl
  · rintro ⟨_ | p, _⟩
    · rfl
    · cases p <;> rfl

/-- C9 (amended): the handshake sends the fixed request and reads one
line, raising on a malformed one — but the wrapper treats EOF (no
Response at all) as success, becoming ready without any Response; the
only pre-flight guard anywhere is on process existence
(`"PRET MCP server not started"` / `"MCP server not started"`), and a
started session's calls are written out regardless of initialization.
The standalone `initialize` does await exactly one response, raising on
EOF. -/
theorem c9_theorem :
    (∀ entries : List (String × Json),
      wrapperInitSession (.line (json_dumps (Json.obj entries) ++ "\n")) = .ready) ∧
    wrapperInitSession .eof = WInitResult.ready ∧
    wrapperInitSession .noLine = WInitResult.hangs ∧
    (∀ raw : String, json_loads (pyStrip raw) = none →
      wrapperInitSession (.line raw) = .raised jsonErrText) ∧
    (∀ (tool : String) (args : Json) (rd : ReadOutcome),
      wrapper_call_tool false tool args rd
        = ⟨.dict (errorDict (.str "PRET MCP server not started")), []⟩) ∧
    (∀ (tool : String) (args : Json) (rd : ReadOutcome),
      (wrapper_call_tool true tool args rd).sent
        = [json_dumps (wrapperToolRequest tool args) ++ "\n"]) ∧
    (∀ (req : Json) (sv : ServerScript),
      send_request false req sv = ⟨.exn "MCP server not started", [], sv⟩) ∧
    (∀ (rid : Nat) (n : String),
      (initializeCall ⟨true, rid⟩ n ⟨[], true⟩).1.result = .exn "No response received") := by
  refine ⟨?_, rfl, rfl, ?_, fun _ _ _ => rfl, fun _ _ _ => rfl, fun _ _ => rfl, fun _ _ => rfl⟩
  · intro entries
    show (match json_loads (pyStrip (json_dumps (Json.obj entries) ++ "\n")) with
      | some _ => WInitResult.ready
      | none => WInitResult.raised jsonErrText) = _
    rw [pyStrip_dumps_obj, json_loads_dumps]
  · intro raw h
    show (match json_loads (pyStrip raw) with
      | some _ => WInitResult.ready
      | none => WInitResult.raised jsonErrText) = _
    rw [h]

/-- C9 counterexample: `_initialize_session` on EOF — zero Responses
received — returns normally, so the session becomes ready without
awaiting any Response (and without raising). -/
theorem c9_counterexample :
    wrapperInitSession .eof = WInitResult.ready ∧
    WInitResult.ready ≠ WInitResult.raised jsonErrText ∧
    WInitResult.ready ≠ WInitResult.hangs :=
  ⟨rfl, fun h => WInitResult.noConfusion h, fun h => WInitResult.noConfusion h⟩

/-- C9 witness: the malformed-handshake branch at a concrete input. -/
theorem c9_witness :
    wrapperInitSession (.line "oops\n") = .raised jsonErrText :=
  c9_theorem.2.2.2.1 "oops\n" rfl

/-- C10 (confirmed): when the started wrapper's read yields EOF without
raising, `call_tool` falls off the `if response_line:` and returns
Python `None` — not a dict, so the layer above cannot inspect any
`success` key on it. -/
theorem c10_theorem :
    (∀ (tool : String) (args : Json),
      (wrapper_call_tool true tool args .eof).outcome = CallResult.pyNone) ∧
    (∀ d : Json, CallResult.pyNone ≠ CallResult.dict d) ∧
    (∀ d : Json, CallResult.pyNone ≠ CallResult.dict (successDict d)) :=
  ⟨fun _ _ => rfl, fun _ h => CallResult.noConfusion h, fun _ h => CallResult.noConfusion h⟩

end PretClient
